import Mathlib

/-!
Verification of the book-marketplace repository (Books4All): a shallow
embedding of the identity/session component and of the relational data
model, with theorems settling the frozen claims about them.

Conventions of the embedding:
* MongoDB collections are lists of row structures; the unique index on
  the email field of the users collection (declared by the mongoose
  schema in client/src/lib/models/user.js) is modelled inside the insert
  primitive, which rejects a document whose email is already present.
* The PostgreSQL schema of the alembic migration is modelled by one row
  structure per table and by delete/insert functions implementing the
  declared ON DELETE actions and constraints.
* External primitives (jsonwebtoken verify, bcrypt compare, the network
  connect of the Mongo driver) are black boxes: they appear as function
  parameters or as an outcome value fed to the model.
* Identifier-level slips of the source are handled as follows: a
  misspelled driver method or import name (findone, collectoin, getDB
  for getDb, the parameter credentails read back as credentials) is
  bound to its evident referent, and each such slip is noted in a
  comment at the definition; a misspelled string KEY in a data map
  (req.headers.authoriztion) is kept literally, because looking up a
  wrong key in a header map is well defined behaviour and is what the
  process actually does.
-/

/-! ### Mongo user documents and the syncUser controller (unnamed/part_003)

The controller body is
  const userExists = await usersCollection.findone({ email });
  if (!userExists) insertOne({ name, email, image, role: "user", createdAt: new Date() })
  else updateOne({ email }, { $set: { name, image } })
The source spells findone for findOne and imports getDb although the
config module exports getDB; the collection operations are modelled by
their evident driver semantics. -/

/-- A document of the users collection as inserted by syncUser. -/
structure MUser where
  name : Option String
  email : String
  image : Option String
  role : String
  createdAt : Nat
deriving Repr, DecidableEq

/-- The request body read by syncUser: { name, email, image }. -/
structure SyncReq where
  name : Option String
  email : String
  image : Option String
deriving Repr, DecidableEq

/-- findOne({ email }): the first document whose email matches. -/
def findOneByEmail (s : List MUser) (e : String) : Option MUser :=
  s.find? (fun u => u.email == e)

/-- insertOne against the users collection, which carries the unique
index on email declared by the mongoose user schema: a duplicate email
makes the driver reject with the E11000 duplicate key error. -/
def insertOneUnique (s : List MUser) (u : MUser) : Except String (List MUser) :=
  if ∃ x ∈ s, x.email = u.email then
    Except.error ("E11000 duplicate key")
  else
    Except.ok (s ++ [u])

/-- The document literal inserted by syncUser: role is the string
literal user and createdAt is the current time. -/
def mkSyncDoc (req : SyncReq) (now : Nat) : MUser :=
  ⟨req.name, req.email, req.image, "user", now⟩

/-- updateOne({ email }, { $set: { name, image } }): updates the first
matching document only, setting exactly the name and image fields. -/
def updateByEmail (s : List MUser) (req : SyncReq) : List MUser :=
  match s with
  | [] => []
  | v :: vs =>
      if v.email = req.email then
        { v with name := req.name, image := req.image } :: vs
      else
        v :: updateByEmail vs req

/-- The HTTP outcome of one syncUser call.  A rejected insert promise is
not caught anywhere in the controller, so it surfaces as a fatal
(uncaught) error rather than as one of the JSON responses. -/
inductive SyncResp where
  | badRequest400
  | created201
  | ok200
  | fatal (msg : String)
deriving Repr, DecidableEq

/-- The per-call control point of syncUser between its two collection
operations. -/
inductive SyncPhase where
  | start
  | afterFind (found : Option MUser)
  | done (r : SyncResp)
deriving Repr, DecidableEq

/-- One in-flight syncUser call: its request, its clock value for new
Date(), and its control point. -/
structure SyncCall where
  req : SyncReq
  now : Nat
  phase : SyncPhase
deriving Repr, DecidableEq

/-- One atomic step of a syncUser call against the shared collection:
either the findOne, or the insert/update decided by what the findOne
saw.  A done call does not move. -/
def stepCall (s : List MUser) (c : SyncCall) : List MUser × SyncCall :=
  match c.phase with
  | SyncPhase.done _ => (s, c)
  | SyncPhase.start =>
      if c.req.email = "" then
        (s, { c with phase := SyncPhase.done SyncResp.badRequest400 })
      else
        (s, { c with phase := SyncPhase.afterFind (findOneByEmail s c.req.email) })
  | SyncPhase.afterFind found =>
      match found with
      | none =>
          match insertOneUnique s (mkSyncDoc c.req c.now) with
          | Except.ok s2 => (s2, { c with phase := SyncPhase.done SyncResp.created201 })
          | Except.error m => (s, { c with phase := SyncPhase.done (SyncResp.fatal m) })
      | some _ =>
          (updateByEmail s c.req, { c with phase := SyncPhase.done SyncResp.ok200 })

/-- A sequential (uninterleaved) run of syncUser: both steps back to
back. -/
def syncUserRun (s : List MUser) (req : SyncReq) (now : Nat) : List MUser × SyncResp :=
  let p1 := stepCall s ⟨req, now, SyncPhase.start⟩
  let p2 := stepCall p1.1 p1.2
  (p2.1, match p2.2.phase with
         | SyncPhase.done r => r
         | _ => SyncResp.fatal ("incomplete"))

/-- Two concurrent syncUser calls driven by a schedule: true advances
call A by one step, false advances call B. -/
def execTwo : List Bool → List MUser × SyncCall × SyncCall → List MUser × SyncCall × SyncCall
  | [], cfg => cfg
  | b :: rest, (s, a, bc) =>
      if b then
        let p := stepCall s a
        execTwo rest (p.1, p.2, bc)
      else
        let p := stepCall s bc
        execTwo rest (p.1, a, p.2)

/-- The number of documents of the collection holding a given email. -/
def countEmail (s : List MUser) (e : String) : Nat :=
  s.countP (fun u => decide (u.email = e))

/-! ### The relational schema (unnamed/part_000, alembic migration)

Row structures keep the columns the claims speak about; deletes
implement the declared ON DELETE actions, and review insertion checks
the declared row constraints. -/

/-- A row of the users table (columns relevant to the claims). -/
structure UserRow where
  id : String
  email : String
deriving Repr, DecidableEq

/-- A row of the books table; seller_id references users ON DELETE CASCADE. -/
structure BookRow where
  id : String
  seller_id : String
  title : String
  author : String
deriving Repr, DecidableEq

/-- A row of the orders table; buyer_id references users ON DELETE CASCADE. -/
structure OrderRow where
  id : String
  buyer_id : String
deriving Repr, DecidableEq

/-- A row of the messages table; sender_id and recipient_id reference
users ON DELETE CASCADE, book_id references books ON DELETE SET NULL. -/
structure MessageRow where
  id : String
  sender_id : String
  recipient_id : String
  book_id : Option String
  content : String
deriving Repr, DecidableEq

/-- A row of the order_items table; order_id references orders ON
DELETE CASCADE, book_id references books ON DELETE SET NULL, and
book_title, book_author, price_at_purchase are the frozen snapshot. -/
structure OrderItemRow where
  id : String
  order_id : String
  book_id : Option String
  quantity : Nat
  price_at_purchase : Int
  book_title : String
  book_author : String
deriving Repr, DecidableEq

/-- A row of the reviews table, carrying the rating check and the
(book_id, user_id) unique constraint. -/
structure ReviewRow where
  id : String
  book_id : String
  user_id : String
  rating : Int
  comment : Option String
  is_verified_purchase : Bool
deriving Repr, DecidableEq

/-- The database state: one list per table of the migration. -/
structure Db where
  users : List UserRow
  books : List BookRow
  orders : List OrderRow
  messages : List MessageRow
  order_items : List OrderItemRow
  reviews : List ReviewRow
deriving Repr, DecidableEq

/-- Null out an optional book reference when it points into the set of
deleted book ids (the ON DELETE SET NULL action). -/
def nullIfDeleted (dead : List String) (b : Option String) : Option String :=
  match b with
  | none => none
  | some x => if x ∈ dead then none else some x

/-- DELETE FROM books WHERE id = b, with the actions declared by the
schema: reviews on that book CASCADE, order_items.book_id and
messages.book_id are SET NULL, snapshots untouched. -/
def deleteBook (db : Db) (b : String) : Db :=
  { users := db.users
    books := db.books.filter (fun x => decide (x.id ≠ b))
    orders := db.orders
    messages := db.messages.map (fun m =>
      if m.book_id = some b then { m with book_id := none } else m)
    order_items := db.order_items.map (fun it =>
      if it.book_id = some b then { it with book_id := none } else it)
    reviews := db.reviews.filter (fun r => decide (r.book_id ≠ b)) }

/-- DELETE FROM users WHERE id = u, with the transitive actions declared
by the schema: the books of the seller, the orders of the buyer, the
messages the user sent or received and the reviews of the user CASCADE;
the order_items of the cascaded orders CASCADE; surviving order_items
and messages pointing at a cascaded book are SET NULL. -/
def deleteUser (db : Db) (u : String) : Db :=
  let deadBooks := (db.books.filter (fun b => decide (b.seller_id = u))).map (fun b => b.id)
  let deadOrders := (db.orders.filter (fun o => decide (o.buyer_id = u))).map (fun o => o.id)
  { users := db.users.filter (fun x => decide (x.id ≠ u))
    books := db.books.filter (fun b => decide (b.seller_id ≠ u))
    orders := db.orders.filter (fun o => decide (o.buyer_id ≠ u))
    messages := (db.messages.filter (fun m =>
        decide (m.sender_id ≠ u) && decide (m.recipient_id ≠ u))).map (fun m =>
      { m with book_id := nullIfDeleted deadBooks m.book_id })
    order_items := (db.order_items.filter (fun it =>
        decide (it.order_id ∉ deadOrders))).map (fun it =>
      { it with book_id := nullIfDeleted deadBooks it.book_id })
    reviews := db.reviews.filter (fun r =>
      decide (r.user_id ≠ u) && decide (r.book_id ∉ deadBooks)) }

/-- Storage-layer errors raised by an insert into reviews. -/
inductive SqlError where
  | checkViolation (name : String)
  | uniqueViolation (name : String)
  | fkViolation (name : String)
deriving Repr, DecidableEq

/-- INSERT INTO reviews, checking the constraints declared by the
migration: the ck_review_rating_range row check, the primary key, the
uq_review_book_user unique constraint and the two foreign keys. -/
def insertReview (db : Db) (r : ReviewRow) : Except SqlError Db :=
  if ¬ (1 ≤ r.rating ∧ r.rating ≤ 5) then
    Except.error (SqlError.checkViolation ("ck_review_rating_range"))
  else if ∃ q ∈ db.reviews, q.id = r.id then
    Except.error (SqlError.uniqueViolation ("reviews_pkey"))
  else if ∃ q ∈ db.reviews, q.book_id = r.book_id ∧ q.user_id = r.user_id then
    Except.error (SqlError.uniqueViolation ("uq_review_book_user"))
  else if ¬ ∃ b ∈ db.books, b.id = r.book_id then
    Except.error (SqlError.fkViolation ("reviews_book_id_fkey"))
  else if ¬ ∃ u ∈ db.users, u.id = r.user_id then
    Except.error (SqlError.fkViolation ("reviews_user_id_fkey"))
  else
    Except.ok { db with reviews := db.reviews ++ [r] }

/-- The state after an attempted review insert: a failed statement
leaves the database untouched. -/
def applyInsertReview (db : Db) (r : ReviewRow) : Db :=
  match insertReview db r with
  | Except.ok d => d
  | Except.error _ => db

/-- At most one review per (book_id, user_id) pair. -/
def atMostOnePerPair (db : Db) : Prop :=
  List.Pairwise (fun a b => ¬ (a.book_id = b.book_id ∧ a.user_id = b.user_id)) db.reviews

/-! ### The credentials authorize callback
(client/src/app/api/auth/[...nextauth]/route.js, second configuration)

  async authorize(credentails) \x7b
    const user = await User.findOne(\x7b email: credentials.email \x7d);
    if (!user) throw new Error("No user Found");
    const isValid = await bcrypt.compare(credentials.password, user.password);
    if (!isValid) throw new Error("Invaild password");
    return \x7b id: user._id, name: user.name, email: user.email \x7d;
  \x7d

The source spells the parameter credentails while the body reads
credentials; the embedding binds the body occurrences to the single
credentials argument.  bcrypt.compare is a black-box parameter; handed a
missing (null/undefined) stored hash it rejects, which the embedding
returns as the failure branch for a user without a password hash. -/

/-- A stored user document as read by the authorize callback: _id, name,
email and an optional password hash (OAuth-only accounts have none). -/
structure CredUser where
  id : String
  name : String
  email : String
  password : Option String
deriving Repr, DecidableEq

/-- The value authorize returns on success.  It has exactly the three
fields from the return literal; there is no field for the hash. -/
structure AuthPrincipal where
  id : String
  name : String
  email : String
deriving Repr, DecidableEq

/-- The authorize callback of the credentials provider.  bcompare is the
black-box bcrypt.compare primitive on (plaintext, stored hash). -/
def authorize (bcompare : String → String → Bool) (users : List CredUser)
    (email pw : String) : Except String AuthPrincipal :=
  match users.find? (fun u => u.email == email) with
  | none => Except.error ("No user Found")
  | some u =>
      match u.password with
      | none => Except.error ("Illegal arguments: undefined")
      | some h =>
          if bcompare pw h then Except.ok ⟨u.id, u.name, u.email⟩
          else Except.error ("Invaild password")

/-! ### The NextAuth jwt and session callbacks
(client/src/app/api/auth/[...nextauth]/route.js)

First configuration:
  jwt(\x7b token, user \x7d): if (user) \x7b token.id = user.id; token.email = user.email \x7d
  session(\x7b session, token \x7d): session.user.id = token.id; session.user.email = token.email
Second configuration (authOptions):
  session(\x7b session, token \x7d): session.user.id = token.sub
The signing secret of the first configuration is the jwt option
  secret: process.env.NEXTAUTH_SECRET
read once when the module-scope options object is built. -/

/-- The authenticated user handed to the jwt callback at sign-in. -/
structure AuthedUser where
  id : String
  email : String
deriving Repr, DecidableEq

/-- The JWT claims object threaded through the callbacks. -/
structure JwtToken where
  id : Option String
  email : Option String
  sub : Option String
deriving Repr, DecidableEq

/-- The user part of a NextAuth session object. -/
structure SessionUser where
  id : Option String
  name : Option String
  email : Option String
deriving Repr, DecidableEq

/-- A NextAuth session object. -/
structure NSession where
  user : SessionUser
deriving Repr, DecidableEq

/-- The jwt callback of the first configuration: at sign-in (user
present) it writes the user id and email into the token; on later calls
it returns the token unchanged. -/
def jwtCallback (token : JwtToken) (user : Option AuthedUser) : JwtToken :=
  match user with
  | some u => { token with id := some u.id, email := some u.email }
  | none => token

/-- The session callback of the first configuration: copies id and email
from the token into session.user. -/
def sessionCallback (session : NSession) (token : JwtToken) : NSession :=
  { session with user := { session.user with id := token.id, email := token.email } }

/-- The session callback of the second configuration (authOptions):
copies token.sub into session.user.id, leaving the rest of
session.user (in particular its email) as handed in. -/
def sessionCallback2 (session : NSession) (token : JwtToken) : NSession :=
  { session with user := { session.user with id := token.sub } }

/-- The process environment values the auth module reads at load. -/
structure EnvCfg where
  nextauthSecret : Option String
deriving Repr, DecidableEq

/-- The module-scope NextAuth options relevant to signing. -/
structure NAConfig where
  jwtSecret : Option String
deriving Repr, DecidableEq

/-- Building the options object once at module load: the jwt secret is
process.env.NEXTAUTH_SECRET. -/
def mkAuthConfig (env : EnvCfg) : NAConfig :=
  ⟨env.nextauthSecret⟩

/-! ### HTTP requests and the two Express middlewares
(unnamed/part_001 authMiddleware, unnamed/part_002 protect)

Both middlewares read req.headers.authoriztion: the header map key is
misspelled in the source, and the lookup of that literal key is kept in
the embedding (Node lower-cases incoming header names, so a standard
Authorization header arrives under the key authorization and is never
seen under authoriztion). -/

/-- A string-keyed map (headers, cookies). -/
def getH (m : List (String × String)) (k : String) : Option String :=
  (m.find? (fun p => p.1 == k)).map (fun p => p.2)

/-- An incoming HTTP request: header map and cookie map. -/
structure HReq where
  headers : List (String × String)
  cookies : List (String × String)
deriving Repr, DecidableEq

/-- Splitting a character list at every space, the JS
String.prototype.split(" ") semantics: adjacent separators yield empty
pieces and the empty input yields one empty piece. -/
def splitOnSpaceChars : List Char → List Char → List (List Char)
  | [], acc => [acc.reverse]
  | c :: cs, acc =>
      if c = ' ' then acc.reverse :: splitOnSpaceChars cs []
      else splitOnSpaceChars cs (c :: acc)

/-- JS s.split(" "). -/
def jsSplitSpace (s : String) : List String :=
  (splitOnSpaceChars s.data []).map String.mk

/-- Whether the first list is an initial segment of the second. -/
def isPrefixChars : List Char → List Char → Bool
  | [], _ => true
  | _ :: _, [] => false
  | a :: as, b :: bs => a == b && isPrefixChars as bs

/-- JS s.startsWith(p). -/
def strStartsWith (s p : String) : Bool :=
  isPrefixChars p.data s.data

/-- JS s.split(" ")[1]: the element after the first space, if any. -/
def splitPart1 (s : String) : Option String :=
  (jsSplitSpace s).get? 1

/-- JS falsiness of an optional string: undefined and the empty string
are falsy. -/
def falsy (v : Option String) : Bool :=
  match v with
  | none => true
  | some s => s == ""

/-- The decoded claims produced by jwt.verify. -/
structure Claims where
  id : String
  email : String
deriving Repr, DecidableEq

/-- The outcome of authMiddleware: a terminal response or next() with
the decoded claims attached as req.user. -/
inductive AuthMwOutcome where
  | res (status : Nat) (body : String)
  | nextW (user : Claims)
deriving Repr, DecidableEq

/-- The token expression of authMiddleware:
req.headers.authoriztion?.split(" ")[1] || req.cookies["next-auth.session-token"];
the JS or-operator falls through on a falsy left operand. -/
def tokenOf (req : HReq) : Option String :=
  let fromHeader := (getH req.headers ("authoriztion")).bind splitPart1
  if falsy fromHeader then getH req.cookies ("next-auth.session-token") else fromHeader

/-- authMiddleware of unnamed/part_001: 401 "No token" when the token
expression is falsy, otherwise jwt.verify against JWT_SECRET; a verify
failure answers 403 "Invalid token", success calls next() with the
decoded claims.  verify is the black-box jwt.verify primitive. -/
def authMiddleware (verify : String → String → Option Claims) (secret : String)
    (req : HReq) : AuthMwOutcome :=
  match tokenOf req with
  | none => AuthMwOutcome.res 401 ("No token")
  | some t =>
      if t = "" then AuthMwOutcome.res 401 ("No token")
      else
        match verify t secret with
        | some d => AuthMwOutcome.nextW d
        | none => AuthMwOutcome.res 403 ("Invalid token")

/-- A document of the users collection as read by protect. -/
structure DbUser where
  id : String
  name : String
deriving Repr, DecidableEq

/-- The outcome of protect: a terminal response or next() with the found
user document attached as req.user. -/
inductive ProtectOutcome where
  | res (status : Nat) (body : String)
  | nextW (user : DbUser)
deriving Repr, DecidableEq

/-- protect of unnamed/part_002.  It reads req.headers.authoriztion (the
misspelled key, kept literally), requires the Bearer prefix, verifies
the token part, looks the decoded id up in the users collection, and
answers 401 when the token slot is empty, the verify fails, or no user
document matches; otherwise next() with the user attached.  The source
calls getDB although the config module is imported as getDb; the
database handle is the db parameter here.  When the split leaves no
token part, jwt.verify throws on the undefined argument and the catch
answers 401 token failed (the later no-token check would then try to
answer a second time; the first response is what the client sees). -/
def protect (verify : String → String → Option Claims) (secret : String)
    (db : List DbUser) (req : HReq) : ProtectOutcome :=
  match getH req.headers ("authoriztion") with
  | some a =>
      if strStartsWith a ("Bearer") then
        match splitPart1 a with
        | none => ProtectOutcome.res 401 ("Not authorized , token failed")
        | some t =>
            match verify t secret with
            | none => ProtectOutcome.res 401 ("Not authorized , token failed")
            | some decoded =>
                match db.find? (fun x => x.id == decoded.id) with
                | none => ProtectOutcome.res 401 ("Not authoriztied , user not found")
                | some u => ProtectOutcome.nextW u
      else ProtectOutcome.res 401 ("Not authorized, no token")
  | none => ProtectOutcome.res 401 ("Not authorized, no token")

/-- The HTTP status of a protect outcome, none when protect called
next(). -/
def protectStatus (o : ProtectOutcome) : Option Nat :=
  match o with
  | ProtectOutcome.res s _ => some s
  | ProtectOutcome.nextW _ => none

/-- The bearer token a request carries: the token part of a
Bearer-prefixed value under the key the middleware reads (authoriztion)
or, failing that, under the standard key authorization. -/
def bearerToken (req : HReq) : Option String :=
  match getH req.headers ("authoriztion") with
  | some a => if strStartsWith a ("Bearer") then splitPart1 a else none
  | none =>
      (getH req.headers ("authorization")).bind (fun a =>
        if strStartsWith a ("Bearer") then splitPart1 a else none)

/-- A concrete jwt.verify instance used by witnesses: under the secret
secret1 exactly the token tokA verifies, decoding to user uA. -/
def verifyEx : String → String → Option Claims :=
  fun t s =>
    if s = "secret1" ∧ t = "tokA" then some ⟨"uA", "a@x.com"⟩ else none

/-! ### The database accessor getDB (server/config/db.js)

  export async function getDB() \x7b
    try \x7b client = new MongoClient(uri); await client.connect();
          db = client.db(); return db; \x7d
    catch (error) \x7b console.error(error); \x7d
  \x7d

The function makes exactly one connection attempt; a failure is caught,
logged, and the function then returns undefined.  The embedding feeds
the outcomes the network would produce for successive attempts as a
list; the result records what the caller receives and how many attempts
were consumed. -/

/-- The outcome of one MongoClient connect attempt. -/
inductive ConnOutcome where
  | connOk (handle : Nat)
  | connFail (err : String)
deriving Repr, DecidableEq

/-- What a call of getDB delivers to its caller: a returned value
(possibly undefined, i.e. none) or a raised error. -/
inductive GetDBResult where
  | value (db : Option Nat)
  | raised (msg : String)
deriving Repr, DecidableEq

/-- getDB run against the available connect outcomes: it consumes the
first outcome only; success returns the handle, failure is caught and
undefined is returned.  The second component counts consumed attempts. -/
def getDBRun (outs : List ConnOutcome) : GetDBResult × Nat :=
  match outs with
  | [] => (GetDBResult.value none, 0)
  | ConnOutcome.connOk h :: _ => (GetDBResult.value (some h), 1)
  | ConnOutcome.connFail _ :: _ => (GetDBResult.value none, 1)

/-! ### Witness fixtures -/

/-- A syncUser request body used by witnesses. -/
def wReq : SyncReq := ⟨some ("N"), "e@x.com", some ("i")⟩

/-- A pre-existing user document used by witnesses. -/
def wOld : MUser := ⟨some ("Old"), "e@x.com", none, "admin", 3⟩

/-- The document wOld becomes after the syncUser update path. -/
def wUpd : MUser := ⟨some ("N"), "e@x.com", some ("i"), "admin", 3⟩

/-- A database fixture used by witnesses: two users, two books, two
orders, messages and an order item snapshotting book b1. -/
def wDb : Db :=
  { users := [⟨"u1", "a@x.com"⟩, ⟨"u2", "b@x.com"⟩]
    books := [⟨"b1", "u1", "Dune", "Herbert"⟩, ⟨"b2", "u2", "Emma", "Austen"⟩]
    orders := [⟨"o1", "u1"⟩, ⟨"o2", "u2"⟩]
    messages := [⟨"m1", "u1", "u2", some ("b1"), "hi"⟩,
                 ⟨"m2", "u2", "u1", some ("b2"), "yo"⟩,
                 ⟨"m3", "u2", "u2", some ("b1"), "note"⟩]
    order_items := [⟨"i1", "o2", some ("b1"), 1, 1999, "Dune", "Herbert"⟩,
                    ⟨"i2", "o2", some ("b2"), 2, 500, "Emma", "Austen"⟩]
    reviews := [⟨"r1", "b1", "u2", 4, none, true⟩] }

/-- The order item i1 after deleteBook nulls its book reference. -/
def wItNull : OrderItemRow := ⟨"i1", "o2", none, 1, 1999, "Dune", "Herbert"⟩

/-- A review duplicating the (b1, u2) pair of the fixture. -/
def wRevDup : ReviewRow := ⟨"r2", "b1", "u2", 3, none, false⟩

/-- A review with a rating outside the permitted range. -/
def wRevBad : ReviewRow := ⟨"r9", "b1", "u1", 6, none, false⟩

/-- A valid fresh review for the fixture. -/
def wRevGood : ReviewRow := ⟨"r9", "b2", "u1", 3, none, false⟩

/-- The secret the configured jwt strategy uses while handling a
request: the module-scope option value, not a function of the request. -/
def secretForRequest (cfg : NAConfig) (_r : HReq) : Option String :=
  cfg.jwtSecret

/-- A concrete bcrypt.compare instance used by witnesses: a hash
matches when it is the plaintext with H appended. -/
def cmpEx : String → String → Bool :=
  fun p h => (p ++ ("H")) == h

/-- A stored credentials user used by witnesses. -/
def wCredUsers : List CredUser := [⟨"u1", "N", "a@x.com", some ("pwH")⟩]

/-- A request presenting the bearer token under the literal key the
middleware reads (authoriztion), used by witnesses. -/
def reqMis : HReq := ⟨[("authoriztion", "Bearer tokA")], []⟩

/-- A users collection holding the user the witness token decodes to. -/
def wDbU : List DbUser := [⟨"uA", "Alice"⟩]

/-- What the control point of a syncUser call certifies about the
shared collection for the email the call processes: a find that saw a
document was looking at one with that email, and a completed call has
both avoided the bad-request response and ensured a document with that
email exists (documents are never removed, so these facts persist). -/
def callCount (e : String) (s : List MUser) (c : SyncCall) : Prop :=
  (∀ u, c.phase = SyncPhase.afterFind (some u) → 1 ≤ countEmail s e)
  ∧ (∀ r, c.phase = SyncPhase.done r →
      r ≠ SyncResp.badRequest400 ∧ 1 ≤ countEmail s e)

/-! ### Helper lemmas -/

/-- updateOne with a $set on name and image never changes any email, so
it preserves the per-email document count. -/
theorem countEmail_updateByEmail (s : List MUser) (req : SyncReq) (e : String) :
    countEmail (updateByEmail s req) e = countEmail s e := by
  induction s with
  | nil => rfl
  | cons v vs ih =>
      by_cases hv : v.email = req.email
      · simp [updateByEmail, hv, countEmail, List.countP_cons]
      · simp only [updateByEmail, if_neg hv]
        simp [countEmail, List.countP_cons] at ih ⊢
        omega

/-- One step of a syncUser call keeps the per-email document count at
most one: the unique index refuses the insert that would make it two. -/
theorem countEmail_stepCall (s : List MUser) (c : SyncCall) (e : String)
    (h : countEmail s e ≤ 1) : countEmail (stepCall s c).1 e ≤ 1 := by
  cases hc : c.phase with
  | done r => simp [stepCall, hc, h]
  | start =>
      by_cases hemail : c.req.email = ""
      · simp [stepCall, hc, hemail, h]
      · simp [stepCall, hc, hemail, h]
  | afterFind found =>
      cases found with
      | some u => simpa [stepCall, hc, countEmail_updateByEmail] using h
      | none =>
          by_cases hex : ∃ x ∈ s, x.email = (mkSyncDoc c.req c.now).email
          · simp [stepCall, hc, insertOneUnique, hex, h]
          · simp only [stepCall, hc, insertOneUnique, if_neg hex]
            by_cases he : (mkSyncDoc c.req c.now).email = e
            · have hzero : countEmail s e = 0 := by
                push_neg at hex
                unfold countEmail
                rw [List.countP_eq_zero]
                intro x hx
                simp only [decide_eq_true_eq]
                intro hxe
                exact hex x hx (by rw [he, hxe])
              unfold countEmail at hzero ⊢
              rw [List.countP_append, hzero]
              simp [List.countP_cons, he]
            · have hone : countEmail [mkSyncDoc c.req c.now] e = 0 := by
                simp [countEmail, List.countP_cons, he]
              unfold countEmail at h hone ⊢
              rw [List.countP_append]
              omega

/-- Any interleaving of the two calls keeps the per-email count at most
one. -/
theorem countEmail_execTwo (sched : List Bool) (cfg : List MUser × SyncCall × SyncCall)
    (e : String) (h : countEmail cfg.1 e ≤ 1) :
    countEmail (execTwo sched cfg).1 e ≤ 1 := by
  induction sched generalizing cfg with
  | nil => simpa [execTwo] using h
  | cons b rest ih =>
      obtain ⟨s, a, bc⟩ := cfg
      cases b with
      | true => exact ih _ (countEmail_stepCall s a e h)
      | false => exact ih _ (countEmail_stepCall s bc e h)

/-- The frame of updateOne with $set on name and image: every document
after the update comes from a document before it with the same email,
role and creation timestamp, and is either untouched or has exactly its
name and image replaced by the request values. -/
theorem updateByEmail_frame (s : List MUser) (req : SyncReq) :
    ∀ v ∈ updateByEmail s req, ∃ v0 ∈ s,
      v.email = v0.email ∧ v.role = v0.role ∧ v.createdAt = v0.createdAt ∧
      (v = v0 ∨ (v.name = req.name ∧ v.image = req.image)) := by
  induction s with
  | nil => intro v hv; simp [updateByEmail] at hv
  | cons w ws ih =>
      intro v hv
      by_cases hw : w.email = req.email
      · simp only [updateByEmail, if_pos hw] at hv
        rcases List.mem_cons.mp hv with h1 | h2
        · exact ⟨w, List.mem_cons_self w ws, by simp [h1]⟩
        · exact ⟨v, List.mem_cons_of_mem w h2, rfl, rfl, rfl, Or.inl rfl⟩
      · simp only [updateByEmail, if_neg hw] at hv
        rcases List.mem_cons.mp hv with h1 | h2
        · exact ⟨w, List.mem_cons_self w ws, by simp [h1]⟩
        · obtain ⟨v0, hv0, hprops⟩ := ih v h2
          exact ⟨v0, List.mem_cons_of_mem w hv0, hprops⟩

/-- When findOne({ email }) saw nothing, no document of the collection
holds that email. -/
theorem findOneByEmail_none (s : List MUser) (e : String)
    (h : findOneByEmail s e = none) : ∀ x ∈ s, x.email ≠ e := by
  intro x hx
  have := List.find?_eq_none.mp h x hx
  simpa using this

/-- A syncUser step never changes the request of the call it moves. -/
theorem stepCall_req (s : List MUser) (c : SyncCall) : (stepCall s c).2.req = c.req := by
  cases hc : c.phase with
  | done r => simp [stepCall, hc]
  | start => by_cases h : c.req.email = "" <;> simp [stepCall, hc, h]
  | afterFind f =>
      cases f with
      | some u => simp [stepCall, hc]
      | none =>
          cases hins : insertOneUnique s (mkSyncDoc c.req c.now) with
          | ok s2 => simp [stepCall, hc, hins]
          | error m => simp [stepCall, hc, hins]

/-- Documents are never removed: a step cannot decrease the per-email
count. -/
theorem countEmail_le_stepCall (s : List MUser) (c : SyncCall) (e : String) :
    countEmail s e ≤ countEmail (stepCall s c).1 e := by
  cases hc : c.phase with
  | done r => simp [stepCall, hc]
  | start => by_cases h : c.req.email = "" <;> simp [stepCall, hc, h]
  | afterFind f =>
      cases f with
      | some u => simp [stepCall, hc, countEmail_updateByEmail]
      | none =>
          by_cases hex : ∃ x ∈ s, x.email = (mkSyncDoc c.req c.now).email
          · simp [stepCall, hc, insertOneUnique, hex]
          · simp only [stepCall, hc, insertOneUnique, if_neg hex]
            unfold countEmail
            rw [List.countP_append]
            omega

/-- A find that returned a document has witnessed one with the searched
email, so the per-email count is at least one. -/
theorem findOneByEmail_some_count (s : List MUser) (e : String) (u : MUser)
    (h : findOneByEmail s e = some u) : 1 ≤ countEmail s e := by
  have hmem : u ∈ s := List.mem_of_find?_eq_some h
  have heq : u.email = e := by
    have := List.find?_some h
    simpa using this
  unfold countEmail
  have hpos : 0 < s.countP (fun x => decide (x.email = e)) := by
    rw [List.countP_pos_iff]
    exact ⟨u, hmem, by simp [heq]⟩
  omega

/-- The control-point facts survive any growth of the collection. -/
theorem callCount_mono (e : String) (s s2 : List MUser) (c : SyncCall)
    (hle : countEmail s e ≤ countEmail s2 e) (h : callCount e s c) :
    callCount e s2 c := by
  obtain ⟨h1, h2⟩ := h
  exact ⟨fun u hu => le_trans (h1 u hu) hle,
         fun r hr => ⟨(h2 r hr).1, le_trans (h2 r hr).2 hle⟩⟩

/-- A step of a call whose (nonempty) email is e preserves the
control-point facts: a completed call has ensured a document with email
e and is never the bad-request response. -/
theorem callCount_step_self (e : String) (s : List MUser) (c : SyncCall)
    (hce : c.req.email = e) (he : e ≠ "") (h : callCount e s c) :
    callCount e (stepCall s c).1 (stepCall s c).2 := by
  obtain ⟨h1, h2⟩ := h
  cases hc : c.phase with
  | done r =>
      have hstep : stepCall s c = (s, c) := by simp [stepCall, hc]
      rw [hstep]
      exact ⟨h1, h2⟩
  | start =>
      have hne : ¬ c.req.email = "" := by rw [hce]; exact he
      have hstep : stepCall s c
          = (s, { c with phase := SyncPhase.afterFind (findOneByEmail s c.req.email) }) := by
        simp [stepCall, hc, hne]
      rw [hstep]
      constructor
      · intro u hu
        have hu2 : SyncPhase.afterFind (findOneByEmail s c.req.email)
            = SyncPhase.afterFind (some u) := hu
        have hfind : findOneByEmail s c.req.email = some u := by
          injection hu2
        rw [hce] at hfind
        exact findOneByEmail_some_count s e u hfind
      · intro r hr
        have hr2 : SyncPhase.afterFind (findOneByEmail s c.req.email)
            = SyncPhase.done r := hr
        exact absurd hr2 (by simp)
  | afterFind f =>
      cases f with
      | some u =>
          have hcnt : 1 ≤ countEmail s e := h1 u hc
          have hstep : stepCall s c
              = (updateByEmail s c.req, { c with phase := SyncPhase.done SyncResp.ok200 }) := by
            simp [stepCall, hc]
          rw [hstep]
          constructor
          · intro u0 hu0
            have hu2 : SyncPhase.done SyncResp.ok200
                = SyncPhase.afterFind (some u0) := hu0
            exact absurd hu2 (by simp)
          · intro r hr
            have hr2 : SyncPhase.done SyncResp.ok200 = SyncPhase.done r := hr
            cases hr2
            exact ⟨by decide, by rw [countEmail_updateByEmail]; exact hcnt⟩
      | none =>
          by_cases hex : ∃ x ∈ s, x.email = (mkSyncDoc c.req c.now).email
          · have hstep : stepCall s c
                = (s, { c with phase :=
                    SyncPhase.done (SyncResp.fatal ("E11000 duplicate key")) }) := by
              simp [stepCall, hc, insertOneUnique, hex]
            rw [hstep]
            have hcnt : 1 ≤ countEmail s e := by
              obtain ⟨x, hx, hxe⟩ := hex
              unfold countEmail
              have hpos : 0 < s.countP (fun v => decide (v.email = e)) := by
                rw [List.countP_pos_iff]
                exact ⟨x, hx, by simp [hxe, mkSyncDoc, hce]⟩
              omega
            constructor
            · intro u0 hu0
              have hu2 : SyncPhase.done (SyncResp.fatal ("E11000 duplicate key"))
                  = SyncPhase.afterFind (some u0) := hu0
              exact absurd hu2 (by simp)
            · intro r hr
              have hr2 : SyncPhase.done (SyncResp.fatal ("E11000 duplicate key"))
                  = SyncPhase.done r := hr
              cases hr2
              exact ⟨by decide, hcnt⟩
          · have hstep : stepCall s c
                = (s ++ [mkSyncDoc c.req c.now],
                   { c with phase := SyncPhase.done SyncResp.created201 }) := by
              simp [stepCall, hc, insertOneUnique, hex]
            rw [hstep]
            have hcnt : 1 ≤ countEmail (s ++ [mkSyncDoc c.req c.now]) e := by
              unfold countEmail
              rw [List.countP_append]
              have hone : List.countP (fun v => decide (v.email = e)) [mkSyncDoc c.req c.now] = 1 := by
                simp [List.countP_cons, mkSyncDoc, hce]
              omega
            constructor
            · intro u0 hu0
              have hu2 : SyncPhase.done SyncResp.created201
                  = SyncPhase.afterFind (some u0) := hu0
              exact absurd hu2 (by simp)
            · intro r hr
              have hr2 : SyncPhase.done SyncResp.created201 = SyncPhase.done r := hr
              cases hr2
              exact ⟨by decide, hcnt⟩

/-- The interleaving invariant of two syncUser calls for the same
nonempty email: at most one document with that email ever exists, and
each call's control point keeps its facts about the collection. -/
theorem inv_execTwo (e : String) (he : e ≠ "") (sched : List Bool)
    (cfg : List MUser × SyncCall × SyncCall)
    (hA : cfg.2.1.req.email = e) (hB : cfg.2.2.req.email = e)
    (hc : countEmail cfg.1 e ≤ 1)
    (ha : callCount e cfg.1 cfg.2.1) (hb : callCount e cfg.1 cfg.2.2) :
    countEmail (execTwo sched cfg).1 e ≤ 1
    ∧ callCount e (execTwo sched cfg).1 (execTwo sched cfg).2.1
    ∧ callCount e (execTwo sched cfg).1 (execTwo sched cfg).2.2 := by
  induction sched generalizing cfg with
  | nil => exact ⟨hc, ha, hb⟩
  | cons b rest ih =>
      obtain ⟨s, a, bc⟩ := cfg
      cases b with
      | true =>
          have hred : execTwo (true :: rest) (s, a, bc)
              = execTwo rest ((stepCall s a).1, (stepCall s a).2, bc) := rfl
          rw [hred]
          refine ih _ ?_ ?_ ?_ ?_ ?_
          · show (stepCall s a).2.req.email = e
            rw [stepCall_req]
            exact hA
          · exact hB
          · exact countEmail_stepCall s a e hc
          · exact callCount_step_self e s a hA he ha
          · exact callCount_mono e s _ bc (countEmail_le_stepCall s a e) hb
      | false =>
          have hred : execTwo (false :: rest) (s, a, bc)
              = execTwo rest ((stepCall s bc).1, a, (stepCall s bc).2) := rfl
          rw [hred]
          refine ih _ ?_ ?_ ?_ ?_ ?_
          · exact hA
          · show (stepCall s bc).2.req.email = e
            rw [stepCall_req]
            exact hB
          · exact countEmail_stepCall s bc e hc
          · exact callCount_mono e s _ a (countEmail_le_stepCall s bc e) ha
          · exact callCount_step_self e s bc hB he hb

/-! ### Claim theorems -/

/-- C1, counterexample to the claim as stated.  Interleaving two
syncUser calls for the same email as find, find, insert, insert: the
second insert hits the unique email index and its rejection is not
caught anywhere in the controller, so the second caller sees a fatal
error, not the update path (ok200) nor the insert path (created201)
that the claim requires. -/
theorem c1_concurrent_upsert_counterexample :
    (execTwo [true, false, true, false]
      ([], ⟨⟨some ("Ann"), "a@x.com", some ("imgA")⟩, 1, SyncPhase.start⟩,
           ⟨⟨some ("Bob"), "a@x.com", some ("imgB")⟩, 2, SyncPhase.start⟩)).2.2.phase
      = SyncPhase.done (SyncResp.fatal ("E11000 duplicate key"))
    ∧ SyncResp.fatal ("E11000 duplicate key") ≠ SyncResp.ok200
    ∧ SyncResp.fatal ("E11000 duplicate key") ≠ SyncResp.created201 :=
  ⟨rfl, by decide, by decide⟩

/-- C1 (amended): two syncUser calls for the same nonempty email leave
exactly one user document for that email — under every interleaving at
most one document exists, and once either call has completed exactly
one exists, because the unique index on email rejects the second
insert; but the rejected insert is not caught: in the find, find,
insert, insert interleaving the second caller ends with an uncaught
fatal error instead of the update path, while exactly one document
remains. -/
theorem c1_concurrent_upsert_amended (sched : List Bool) (reqA reqB : SyncReq)
    (tA tB : Nat) (e : String) (heA : reqA.email = e) (heB : reqB.email = e)
    (he : e ≠ "") :
    countEmail (execTwo sched
      ([], ⟨reqA, tA, SyncPhase.start⟩, ⟨reqB, tB, SyncPhase.start⟩)).1 e ≤ 1
    ∧ (∀ rA, (execTwo sched
        ([], ⟨reqA, tA, SyncPhase.start⟩, ⟨reqB, tB, SyncPhase.start⟩)).2.1.phase
          = SyncPhase.done rA →
        countEmail (execTwo sched
          ([], ⟨reqA, tA, SyncPhase.start⟩, ⟨reqB, tB, SyncPhase.start⟩)).1 e = 1)
    ∧ (∀ rB, (execTwo sched
        ([], ⟨reqA, tA, SyncPhase.start⟩, ⟨reqB, tB, SyncPhase.start⟩)).2.2.phase
          = SyncPhase.done rB →
        countEmail (execTwo sched
          ([], ⟨reqA, tA, SyncPhase.start⟩, ⟨reqB, tB, SyncPhase.start⟩)).1 e = 1)
    ∧ (execTwo [true, false, true, false]
        ([], ⟨⟨some ("Ann"), "a@x.com", some ("imgA")⟩, 1, SyncPhase.start⟩,
             ⟨⟨some ("Bob"), "a@x.com", some ("imgB")⟩, 2, SyncPhase.start⟩)).2.2.phase
      = SyncPhase.done (SyncResp.fatal ("E11000 duplicate key"))
    ∧ countEmail (execTwo [true, false, true, false]
        ([], ⟨⟨some ("Ann"), "a@x.com", some ("imgA")⟩, 1, SyncPhase.start⟩,
             ⟨⟨some ("Bob"), "a@x.com", some ("imgB")⟩, 2, SyncPhase.start⟩)).1
        ("a@x.com") = 1 := by
  have hinv := inv_execTwo e he sched
    ([], ⟨reqA, tA, SyncPhase.start⟩, ⟨reqB, tB, SyncPhase.start⟩)
    heA heB (by simp [countEmail])
    ⟨fun u hu => absurd hu (by simp), fun r hr => absurd hr (by simp)⟩
    ⟨fun u hu => absurd hu (by simp), fun r hr => absurd hr (by simp)⟩
  refine ⟨hinv.1, ?_, ?_, rfl, by decide⟩
  · intro rA hdone
    have hge := (hinv.2.1.2 rA hdone).2
    have hle := hinv.1
    omega
  · intro rB hdone
    have hge := (hinv.2.2.2 rB hdone).2
    have hle := hinv.1
    omega

/-- C1 witness: the amended theorem applied to the find, find, insert,
insert interleaving of two concrete calls for the same email, using the
completion of the second call (the fatal one) to conclude that exactly
one document for that email remains. -/
theorem c1_concurrent_upsert_witness :
    countEmail (execTwo [true, false, true, false]
      ([], ⟨⟨some ("Ann"), "a@x.com", some ("imgA")⟩, 1, SyncPhase.start⟩,
           ⟨⟨some ("Bob"), "a@x.com", some ("imgB")⟩, 2, SyncPhase.start⟩)).1
      ("a@x.com") = 1 :=
  (c1_concurrent_upsert_amended [true, false, true, false]
      ⟨some ("Ann"), "a@x.com", some ("imgA")⟩ ⟨some ("Bob"), "a@x.com", some ("imgB")⟩
      1 2 ("a@x.com") rfl rfl (by decide)).2.2.1
    (SyncResp.fatal ("E11000 duplicate key")) (by decide)

/-- C3, counterexample to the claim as stated.  Running syncUser on an
empty collection inserts a document whose role is the string user (the
literal of unnamed/part_003 line 20), not buyer as the claim states. -/
theorem c3_upsert_role_counterexample :
    (syncUserRun [] ⟨some ("N"), "e@x.com", some ("i")⟩ 7).1
      = [⟨some ("N"), "e@x.com", some ("i"), "user", 7⟩]
    ∧ ("user" : String) ≠ "buyer" :=
  ⟨rfl, by decide⟩

/-- C3 (amended): with a nonempty email, when no document with that
email exists syncUser inserts exactly the document literal of the code,
whose role is the string user and whose createdAt is the current time;
when one exists, every document of the collection afterwards comes from
a document before with the same email, role and creation timestamp,
either untouched or with exactly name and image replaced by the request
values. -/
theorem c3_upsert_fields_amended (s : List MUser) (req : SyncReq) (now : Nat)
    (hreq : req.email ≠ "") :
    (findOneByEmail s req.email = none →
        (syncUserRun s req now).1 = s ++ [mkSyncDoc req now]
        ∧ (mkSyncDoc req now).role = "user"
        ∧ (mkSyncDoc req now).createdAt = now
        ∧ (mkSyncDoc req now).email = req.email)
    ∧ (∀ u0, findOneByEmail s req.email = some u0 →
        ∀ v ∈ (syncUserRun s req now).1, ∃ v0 ∈ s,
          v.email = v0.email ∧ v.role = v0.role ∧ v.createdAt = v0.createdAt ∧
          (v = v0 ∨ (v.name = req.name ∧ v.image = req.image))) := by
  constructor
  · intro hnone
    have hno : ¬ ∃ x ∈ s, x.email = (mkSyncDoc req now).email := by
      rintro ⟨x, hx, hxe⟩
      exact findOneByEmail_none s req.email hnone x hx hxe
    have hins : insertOneUnique s (mkSyncDoc req now) = Except.ok (s ++ [mkSyncDoc req now]) := by
      unfold insertOneUnique
      rw [if_neg hno]
    refine ⟨?_, rfl, rfl, rfl⟩
    simp [syncUserRun, stepCall, hreq, hnone, hins]
  · intro u0 hsome v hv
    have hrun : (syncUserRun s req now).1 = updateByEmail s req := by
      simp [syncUserRun, stepCall, hreq, hsome]
    rw [hrun] at hv
    exact updateByEmail_frame s req v hv

/-- C3 witness: the amended theorem applied on the empty collection
(insert path) and on a one-document collection (update path). -/
theorem c3_upsert_fields_witness :
    ((syncUserRun [] wReq 7).1 = [] ++ [mkSyncDoc wReq 7]
      ∧ (mkSyncDoc wReq 7).role = "user"
      ∧ (mkSyncDoc wReq 7).createdAt = 7
      ∧ (mkSyncDoc wReq 7).email = wReq.email)
    ∧ (∃ v0 ∈ [wOld],
        wUpd.email = v0.email ∧ wUpd.role = v0.role ∧ wUpd.createdAt = v0.createdAt ∧
        (wUpd = v0 ∨ (wUpd.name = wReq.name ∧ wUpd.image = wReq.image))) :=
  ⟨(c3_upsert_fields_amended [] wReq 7 (by decide)).1 rfl,
   (c3_upsert_fields_amended [wOld] wReq 9 (by decide)).2 wOld rfl wUpd (by decide)⟩

/-- A successful review insert appends the row and can only have passed
the uq_review_book_user guard: no earlier row shares its (book_id,
user_id) pair. -/
theorem insertReview_ok_pairfree (db : Db) (r : ReviewRow) (d : Db)
    (h : insertReview db r = Except.ok d) :
    d.reviews = db.reviews ++ [r]
    ∧ ¬ ∃ q ∈ db.reviews, q.book_id = r.book_id ∧ q.user_id = r.user_id := by
  unfold insertReview at h
  split_ifs at h with h1 h2 h3 h4 h5
  simp_all
  rw [← h]

/-- C5: deleting a user removes that seller's books, that buyer's
orders, every message the user sent or received and the user row
itself; deleting a book leaves every order item and message derived
from an existing row with the same identity, snapshot columns
(book_title, book_author, price_at_purchase) and content, with a book
reference that is nulled exactly when it pointed at the deleted book;
the book row itself is gone. -/
theorem c5_delete_cascade_setnull (db : Db) (u b : String) :
    (∀ x ∈ (deleteUser db u).users, x.id ≠ u)
    ∧ (∀ bk ∈ (deleteUser db u).books, bk.seller_id ≠ u)
    ∧ (∀ o ∈ (deleteUser db u).orders, o.buyer_id ≠ u)
    ∧ (∀ m ∈ (deleteUser db u).messages, m.sender_id ≠ u ∧ m.recipient_id ≠ u)
    ∧ (∀ it ∈ (deleteBook db b).order_items, ∃ it0 ∈ db.order_items,
        it.id = it0.id ∧ it.order_id = it0.order_id ∧ it.quantity = it0.quantity
        ∧ it.price_at_purchase = it0.price_at_purchase
        ∧ it.book_title = it0.book_title ∧ it.book_author = it0.book_author
        ∧ it.book_id = (if it0.book_id = some b then none else it0.book_id)
        ∧ it.book_id ≠ some b)
    ∧ (∀ m ∈ (deleteBook db b).messages, ∃ m0 ∈ db.messages,
        m.id = m0.id ∧ m.sender_id = m0.sender_id ∧ m.recipient_id = m0.recipient_id
        ∧ m.content = m0.content
        ∧ m.book_id = (if m0.book_id = some b then none else m0.book_id))
    ∧ (∀ bk ∈ (deleteBook db b).books, bk.id ≠ b) := by
  refine ⟨?_, ?_, ?_, ?_, ?_, ?_, ?_⟩
  · intro x hx
    simp only [deleteUser, List.mem_filter, decide_eq_true_eq] at hx
    exact hx.2
  · intro bk hbk
    simp only [deleteUser, List.mem_filter, decide_eq_true_eq] at hbk
    exact hbk.2
  · intro o ho
    simp only [deleteUser, List.mem_filter, decide_eq_true_eq] at ho
    exact ho.2
  · intro m hm
    simp only [deleteUser, List.mem_map, List.mem_filter, Bool.and_eq_true,
      decide_eq_true_eq] at hm
    obtain ⟨m0, ⟨_, hs, hr⟩, rfl⟩ := hm
    exact ⟨hs, hr⟩
  · intro it hit
    simp only [deleteBook, List.mem_map] at hit
    obtain ⟨it0, hmem, rfl⟩ := hit
    by_cases hb : it0.book_id = some b
    · exact ⟨it0, hmem, by simp [hb]⟩
    · exact ⟨it0, hmem, by simp [hb]⟩
  · intro m hm
    simp only [deleteBook, List.mem_map] at hm
    obtain ⟨m0, hmem, rfl⟩ := hm
    by_cases hb : m0.book_id = some b
    · exact ⟨m0, hmem, by simp [hb]⟩
    · exact ⟨m0, hmem, by simp [hb]⟩
  · intro bk hbk
    simp only [deleteBook, List.mem_filter, decide_eq_true_eq] at hbk
    exact hbk.2

/-- C5 witness: on the fixture, the surviving book b2 is not owned by
the deleted user u1, and after deleting book b1 the order item i1 keeps
its snapshot with a nulled book reference. -/
theorem c5_delete_cascade_setnull_witness :
    (⟨"b2", "u2", "Emma", "Austen"⟩ : BookRow).seller_id ≠ "u1"
    ∧ (∃ it0 ∈ wDb.order_items,
        wItNull.id = it0.id ∧ wItNull.order_id = it0.order_id
        ∧ wItNull.quantity = it0.quantity
        ∧ wItNull.price_at_purchase = it0.price_at_purchase
        ∧ wItNull.book_title = it0.book_title ∧ wItNull.book_author = it0.book_author
        ∧ wItNull.book_id = (if it0.book_id = some ("b1") then none else it0.book_id)
        ∧ wItNull.book_id ≠ some ("b1")) :=
  ⟨(c5_delete_cascade_setnull wDb ("u1") ("b1")).2.1 _ (by decide),
   (c5_delete_cascade_setnull wDb ("u1") ("b1")).2.2.2.2.1 wItNull (by decide)⟩

/-- C6: a successful review insert preserves the at most one review per
(book_id, user_id) pair invariant, and inserting a second review for an
already reviewed pair (the rating being in range and the id fresh, so
no earlier constraint fires) fails with the uq_review_book_user
uniqueness violation and leaves the database unchanged. -/
theorem c6_review_pair_unique (db : Db) (r : ReviewRow) :
    (atMostOnePerPair db → atMostOnePerPair (applyInsertReview db r))
    ∧ (1 ≤ r.rating → r.rating ≤ 5 → (∀ q ∈ db.reviews, q.id ≠ r.id) →
        (∃ q ∈ db.reviews, q.book_id = r.book_id ∧ q.user_id = r.user_id) →
        insertReview db r = Except.error (SqlError.uniqueViolation ("uq_review_book_user"))
        ∧ applyInsertReview db r = db) := by
  constructor
  · intro hinv
    unfold applyInsertReview
    cases hh : insertReview db r with
    | error e => exact hinv
    | ok d =>
        obtain ⟨hrev, hpair⟩ := insertReview_ok_pairfree db r d hh
        unfold atMostOnePerPair at hinv ⊢
        rw [hrev, List.pairwise_append]
        refine ⟨hinv, List.pairwise_singleton _ _, ?_⟩
        intro a ha q hq
        simp only [List.mem_singleton] at hq
        subst hq
        rintro ⟨hbk, hus⟩
        exact hpair ⟨a, ha, hbk, hus⟩
  · intro hr1 hr2 hid hpair
    have hnid : ¬ ∃ q ∈ db.reviews, q.id = r.id := by
      rintro ⟨q, hq, hqe⟩
      exact hid q hq hqe
    have heq : insertReview db r
        = Except.error (SqlError.uniqueViolation ("uq_review_book_user")) := by
      unfold insertReview
      rw [if_neg (not_not_intro ⟨hr1, hr2⟩), if_neg hnid, if_pos hpair]
    refine ⟨heq, ?_⟩
    unfold applyInsertReview
    rw [heq]

/-- C6 witness: on the fixture, the duplicate review for the pair
(b1, u2) fails with the pair uniqueness violation and changes nothing,
and the invariant is preserved through the attempted insert. -/
theorem c6_review_pair_unique_witness :
    (insertReview wDb wRevDup
        = Except.error (SqlError.uniqueViolation ("uq_review_book_user"))
      ∧ applyInsertReview wDb wRevDup = wDb)
    ∧ atMostOnePerPair (applyInsertReview wDb wRevDup) :=
  ⟨(c6_review_pair_unique wDb wRevDup).2 (by decide) (by decide) (by decide)
      ⟨⟨"r1", "b1", "u2", 4, none, true⟩, by decide, by decide, by decide⟩,
   (c6_review_pair_unique wDb wRevDup).1
      (by unfold atMostOnePerPair; exact List.pairwise_singleton _ _)⟩

/-- C7: a rating outside [1, 5] makes the review insert fail with the
ck_review_rating_range check violation declared in the migration; a
rating inside the range, the other constraints being satisfied, makes
it succeed and append the row. -/
theorem c7_review_rating_range (db : Db) (r : ReviewRow) :
    ((r.rating < 1 ∨ 5 < r.rating) →
        insertReview db r = Except.error (SqlError.checkViolation ("ck_review_rating_range")))
    ∧ (1 ≤ r.rating → r.rating ≤ 5 →
        (∀ q ∈ db.reviews, q.id ≠ r.id) →
        (¬ ∃ q ∈ db.reviews, q.book_id = r.book_id ∧ q.user_id = r.user_id) →
        (∃ bk ∈ db.books, bk.id = r.book_id) →
        (∃ us ∈ db.users, us.id = r.user_id) →
        insertReview db r = Except.ok { db with reviews := db.reviews ++ [r] }) := by
  constructor
  · intro hout
    unfold insertReview
    rw [if_pos]
    rintro ⟨ha, hb⟩
    rcases hout with h | h
    · omega
    · omega
  · intro h1 h2 hid hpair hbook huser
    have hnid : ¬ ∃ q ∈ db.reviews, q.id = r.id := by
      rintro ⟨q, hq, hqe⟩
      exact hid q hq hqe
    unfold insertReview
    rw [if_neg (not_not_intro ⟨h1, h2⟩), if_neg hnid, if_neg hpair,
      if_neg (not_not_intro hbook), if_neg (not_not_intro huser)]

/-- C7 witness: on the fixture, the rating 6 review fails with the range
check and the rating 3 review succeeds. -/
theorem c7_review_rating_range_witness :
    insertReview wDb wRevBad
      = Except.error (SqlError.checkViolation ("ck_review_rating_range"))
    ∧ insertReview wDb wRevGood
      = Except.ok { wDb with reviews := wDb.reviews ++ [wRevGood] } :=
  ⟨(c7_review_rating_range wDb wRevBad).1 (Or.inr (by decide)),
   (c7_review_rating_range wDb wRevGood).2 (by decide) (by decide) (by decide)
     (by decide) ⟨⟨"b2", "u2", "Emma", "Austen"⟩, by decide, by decide⟩
     ⟨⟨"u1", "a@x.com"⟩, by decide, by decide⟩⟩

/-- C2: password sign-in fails when no user matches the email, when the
stored user has no password hash (the bcrypt primitive rejects on the
missing argument), and when the hash comparison fails; when the
comparison succeeds it returns exactly the id, name and email of the
matched user, so no successful result can carry the hash. -/
theorem c2_password_signin (bcompare : String → String → Bool) (users : List CredUser)
    (email pw : String) :
    (users.find? (fun u => u.email == email) = none →
        authorize bcompare users email pw = Except.error ("No user Found"))
    ∧ (∀ u, users.find? (fun u0 => u0.email == email) = some u → u.password = none →
        ∃ m, authorize bcompare users email pw = Except.error m)
    ∧ (∀ u hsh, users.find? (fun u0 => u0.email == email) = some u →
        u.password = some hsh → bcompare pw hsh = false →
        authorize bcompare users email pw = Except.error ("Invaild password"))
    ∧ (∀ u hsh, users.find? (fun u0 => u0.email == email) = some u →
        u.password = some hsh → bcompare pw hsh = true →
        authorize bcompare users email pw = Except.ok ⟨u.id, u.name, u.email⟩)
    ∧ (∀ p, authorize bcompare users email pw = Except.ok p →
        ∃ u ∈ users, u.email = email ∧ p = ⟨u.id, u.name, u.email⟩) := by
  refine ⟨?_, ?_, ?_, ?_, ?_⟩
  · intro h
    simp [authorize, h]
  · intro u hu hp
    simp [authorize, hu, hp]
  · intro u hsh hu hp hc
    simp [authorize, hu, hp, hc]
  · intro u hsh hu hp hc
    simp [authorize, hu, hp, hc]
  · intro p hp
    unfold authorize at hp
    cases hfind : users.find? (fun u => u.email == email) with
    | none =>
        rw [hfind] at hp
        exact absurd hp (by simp)
    | some u =>
        have hmem : u ∈ users := List.mem_of_find?_eq_some hfind
        have hemail : u.email = email := by
          have := List.find?_some hfind
          simpa using this
        cases hpw : u.password with
        | none =>
            simp [authorize, hfind, hpw] at hp
        | some hsh =>
            by_cases hc : bcompare pw hsh = true
            · simp only [authorize, hfind, hpw, hc, if_true, Except.ok.injEq] at hp
              exact ⟨u, hmem, hemail, hp.symm⟩
            · simp [authorize, hfind, hpw, hc] at hp

/-- C2 witness: on a one-user store, the matching password signs in and
returns exactly id, name and email; the unknown email and the wrong
password both fail. -/
theorem c2_password_signin_witness :
    authorize cmpEx wCredUsers ("a@x.com") ("pw") = Except.ok ⟨"u1", "N", "a@x.com"⟩
    ∧ authorize cmpEx [] ("a@x.com") ("pw") = Except.error ("No user Found")
    ∧ authorize cmpEx wCredUsers ("a@x.com") ("nope")
        = Except.error ("Invaild password") :=
  ⟨(c2_password_signin cmpEx wCredUsers ("a@x.com") ("pw")).2.2.2.1
      ⟨"u1", "N", "a@x.com", some ("pwH")⟩ ("pwH") (by decide) (by decide) (by decide),
   (c2_password_signin cmpEx [] ("a@x.com") ("pw")).1 (by decide),
   (c2_password_signin cmpEx wCredUsers ("a@x.com") ("nope")).2.2.1
      ⟨"u1", "N", "a@x.com", some ("pwH")⟩ ("pwH") (by decide) (by decide) (by decide)⟩

/-- C4: the code evaluated at the failing input.  A request supplying
its bearer token under the standard authorization header (the key Node
delivers) with no session cookie is answered 401 No token by
authMiddleware, i.e. classified as the missing-token case, although a
token was supplied and is invalid (the claim requires the invalid-token
case, 403); protect likewise answers 401 no token even for a token that
verifies and decodes to an existing user, because both middlewares read
the misspelled header key authoriztion. -/
theorem c4_header_token_misclassified :
    verifyEx ("xyz") ("secret1") = none
    ∧ authMiddleware verifyEx ("secret1") ⟨[("authorization", "Bearer xyz")], []⟩
        = AuthMwOutcome.res 401 ("No token")
    ∧ AuthMwOutcome.res 401 ("No token") ≠ AuthMwOutcome.res 403 ("Invalid token")
    ∧ verifyEx ("tokA") ("secret1") = some ⟨"uA", "a@x.com"⟩
    ∧ protect verifyEx ("secret1") wDbU ⟨[("authorization", "Bearer tokA")], []⟩
        = ProtectOutcome.res 401 ("Not authorized, no token") := by
  decide

/-- C8: at sign-in the jwt callback embeds the user id and email in the
token; the session callback of the first configuration copies both into
the session; the session callback of the second configuration sets the
id from token.sub and leaves the session email as handed in; and the
secret in force while handling a request is the module-scope
configuration value, identical across requests. -/
theorem c8_session_embeds_id_email (tok : JwtToken) (u : AuthedUser) (s : NSession)
    (env : EnvCfg) :
    (jwtCallback tok (some u)).id = some u.id
    ∧ (jwtCallback tok (some u)).email = some u.email
    ∧ (sessionCallback s (jwtCallback tok (some u))).user.id = some u.id
    ∧ (sessionCallback s (jwtCallback tok (some u))).user.email = some u.email
    ∧ (∀ t, (sessionCallback2 s t).user.id = t.sub
        ∧ (sessionCallback2 s t).user.email = s.user.email)
    ∧ (∀ r1 r2 : HReq,
        secretForRequest (mkAuthConfig env) r1 = secretForRequest (mkAuthConfig env) r2) :=
  ⟨rfl, rfl, rfl, rfl, fun _ => ⟨rfl, rfl⟩, fun _ _ => rfl⟩

/-- C9: the code evaluated at the failing input.  With the first connect
attempt failing (and a second attempt available that would succeed),
getDB consumes only the one attempt and hands the caller the returned
value undefined; moreover no run of getDB ever uses more than one
attempt or surfaces a raised error to the caller. -/
theorem c9_getdb_swallows_failure :
    getDBRun [ConnOutcome.connFail ("ECONNREFUSED"), ConnOutcome.connOk 1]
      = (GetDBResult.value none, 1)
    ∧ (∀ outs : List ConnOutcome, (getDBRun outs).2 ≤ 1)
    ∧ (∀ outs : List ConnOutcome, ∀ msg, (getDBRun outs).1 ≠ GetDBResult.raised msg) := by
  refine ⟨rfl, ?_, ?_⟩
  · intro outs
    cases outs with
    | nil => simp [getDBRun]
    | cons o rest => cases o <;> simp [getDBRun]
  · intro outs msg
    cases outs with
    | nil => simp [getDBRun]
    | cons o rest => cases o <;> simp [getDBRun]

/-- C10: protect calls next() with a user attached only when the header
token it reads verifies and the users collection holds a document with
the decoded id; and whenever a request carries a bearer token that
verifies but no user document with the decoded id exists, protect
answers status 401 and attaches no principal. -/
theorem c10_protect_requires_user_row (verify : String → String → Option Claims)
    (secret : String) (db : List DbUser) (req : HReq) :
    (∀ u, protect verify secret db req = ProtectOutcome.nextW u →
        ∃ a t d, getH req.headers ("authoriztion") = some a
          ∧ splitPart1 a = some t ∧ verify t secret = some d
          ∧ db.find? (fun x => x.id == d.id) = some u ∧ u ∈ db ∧ u.id = d.id)
    ∧ (∀ t d, bearerToken req = some t → verify t secret = some d →
        db.find? (fun x => x.id == d.id) = none →
        protectStatus (protect verify secret db req) = some 401) := by
  constructor
  · intro u hu
    cases ha : getH req.headers ("authoriztion") with
    | none => simp [protect, ha] at hu
    | some a =>
        by_cases hbear : strStartsWith a ("Bearer") = true
        · cases hsp : splitPart1 a with
          | none => simp [protect, ha, hbear, hsp] at hu
          | some t =>
              cases hv : verify t secret with
              | none => simp [protect, ha, hbear, hsp, hv] at hu
              | some d =>
                  cases hf : db.find? (fun x => x.id == d.id) with
                  | none => simp [protect, ha, hbear, hsp, hv, hf] at hu
                  | some u0 =>
                      simp only [protect, ha, hbear, hsp, hv, hf, if_true,
                        ProtectOutcome.nextW.injEq] at hu
                      subst hu
                      refine ⟨a, t, d, rfl, hsp, hv, hf,
                        List.mem_of_find?_eq_some hf, ?_⟩
                      have := List.find?_some hf
                      simpa using this
        · simp [protect, ha, hbear] at hu
  · intro t d hbt hv hf
    cases ha : getH req.headers ("authoriztion") with
    | none => simp [protect, ha, protectStatus]
    | some a =>
        simp only [bearerToken, ha] at hbt
        by_cases hbear : strStartsWith a ("Bearer") = true
        · rw [if_pos hbear] at hbt
          simp [protect, ha, hbear, hbt, hv, hf, protectStatus]
        · rw [if_neg hbear] at hbt
          exact absurd hbt (by simp)

/-- C10 witness: with the token presented under the key protect reads,
the verified token of an existing user authenticates (exhibiting the
inversion), and with an empty users collection the same verified token
is answered 401. -/
theorem c10_protect_requires_user_row_witness :
    (∃ a t d, getH reqMis.headers ("authoriztion") = some a
      ∧ splitPart1 a = some t ∧ verifyEx t ("secret1") = some d
      ∧ wDbU.find? (fun x => x.id == d.id) = some ⟨"uA", "Alice"⟩
      ∧ (⟨"uA", "Alice"⟩ : DbUser) ∈ wDbU ∧ (⟨"uA", "Alice"⟩ : DbUser).id = d.id)
    ∧ protectStatus (protect verifyEx ("secret1") [] reqMis) = some 401 :=
  ⟨(c10_protect_requires_user_row verifyEx ("secret1") wDbU reqMis).1
      ⟨"uA", "Alice"⟩ (by decide),
   (c10_protect_requires_user_row verifyEx ("secret1") [] reqMis).2
      ("tokA") ⟨"uA", "a@x.com"⟩ (by decide) (by decide) (by decide)⟩
